import Mathlib

/-!
Shallow embedding of the ggegui rendering/input bridge
(`src/painter.rs`, `src/input.rs`).

Conventions of the embedding:
* `usize` indices and byte values are `Nat`; `f32` coordinates are `ℚ`
  (every operation the code performs on them is exact field arithmetic).
* `HashMap<K, V>` is a total function `Nat → Option V` with pointwise
  insert/remove.
* `LinkedList` (the texture-delta queue) is a `List`, front at the head;
  `pop_front` is pattern matching on the head.
* A Rust `panic!` / `.unwrap()` failure is an error value (`Except` /
  `Option` error component); a function that cannot panic is total.
* Calls into external crates (`egui`, `ggez`) that the bridge only passes
  data through are modelled as pure constructors that retain that data;
  the two numeric conversions performed inside `egui` itself
  (`Rgba::from(Color32)` and the font-coverage-to-alpha curve of
  `FontImage::srgba_pixels`) are opaque parameters of an `Env`, because
  their numeric values never matter to the bridge, only the shape of the
  data they return.
-/

namespace Ggegui

/-- `egui::Color32`: four 8-bit channels r, g, b, a (bytes as `Nat`). -/
structure Color32 where
  r : Nat
  g : Nat
  b : Nat
  a : Nat
deriving DecidableEq, Repr

/-- `Color32::to_array()`: the four channel bytes in RGBA order. -/
def Color32.toArray (c : Color32) : List Nat :=
  [c.r, c.g, c.b, c.a]

/-- `egui::ColorImage`: width, height and straight-RGBA pixels. -/
structure ColorImage where
  w : Nat
  h : Nat
  pixels : List Color32
deriving DecidableEq, Repr

/-- `egui::FontImage`: width, height and one `f32` coverage value per
texel (modelled as `ℚ`). -/
structure FontImage where
  w : Nat
  h : Nat
  pixels : List ℚ
deriving DecidableEq, Repr

/-- `egui::ImageData`: either a color image or a font (coverage) image. -/
inductive ImageData where
  | Color (image : ColorImage)
  | Font (image : FontImage)
deriving DecidableEq, Repr

/-- Opaque `egui::TextureId`. -/
abbrev TexId := Nat

/-- The two numeric conversions done inside egui that the bridge calls:
`alphaOf` is the coverage→alpha-byte curve used by
`FontImage::srgba_pixels` (gamma-dependent, opaque here), and `rgba` is
`egui::Rgba::from(color).to_array()` (sRGB→linear, opaque here). -/
structure Env where
  alphaOf : ℚ → Nat
  rgba : Color32 → List ℚ

/-- `egui::FontImage::srgba_pixels` yields, for each coverage value, a
premultiplied white `Color32` whose four channels all carry the same
alpha byte (`Color32::from_rgba_premultiplied(a, a, a, a)`). -/
def srgbaPixel (env : Env) (coverage : ℚ) : Color32 :=
  let a := env.alphaOf coverage
  ⟨a, a, a, a⟩

/-- `PixBuf` from `painter.rs`: owned RGBA8 byte buffer plus width and
height. -/
structure PixBuf where
  pix : List Nat
  w : Nat
  h : Nat
deriving DecidableEq, Repr

/-- `PixBuf::from_color`: expand each texel's `to_array()` bytes into the
buffer, in pixel order. -/
def PixBuf.from_color (color : ColorImage) : PixBuf :=
  { pix := (color.pixels.map Color32.toArray).flatten
    w := color.w
    h := color.h }

/-- `PixBuf::from_font`: expand each `srgba_pixels` texel's `to_array()`
bytes into the buffer, in pixel order. -/
def PixBuf.from_font (env : Env) (font : FontImage) : PixBuf :=
  { pix := ((font.pixels.map (srgbaPixel env)).map Color32.toArray).flatten
    w := font.w
    h := font.h }

/-- `PixBuf::from_image_data`: dispatch on the image payload kind. -/
def PixBuf.from_image_data (env : Env) (img : ImageData) : PixBuf :=
  match img with
  | ImageData.Color image => PixBuf.from_color image
  | ImageData.Font image => PixBuf.from_font env image

/-- `ggez::graphics::ImageFormat` as used by the bridge. -/
inductive ImageFormat where
  | Rgba8UnormSrgb
deriving DecidableEq, Repr

/-- A GPU texture (`ggez::graphics::Image`) as created by
`Image::from_pixels`: it retains the uploaded bytes, format and size. -/
structure GImage where
  pix : List Nat
  format : ImageFormat
  w : Nat
  h : Nat
deriving DecidableEq, Repr

/-- `PixBuf::to_texture`: upload the buffer as sRGB-tagged RGBA8. -/
def PixBuf.to_texture (b : PixBuf) : GImage :=
  { pix := b.pix, format := ImageFormat.Rgba8UnormSrgb, w := b.w, h := b.h }

/-- `PixBuf::blit`: the body only prints the destination/source index
pairs it would copy; it writes no byte.  The model returns the (unchanged)
destination buffer together with the printed index pairs, mirroring the
row loop (`row * self.w + pos.0` destination start, `row * pix.h` source
start — the source-stride bug is reproduced as-is). -/
def PixBuf.blit (self : PixBuf) (pix : PixBuf) (pos : Nat × Nat) :
    PixBuf × List (Nat × Nat) :=
  (self,
    ((List.range' pos.2 pix.h).map (fun row =>
      let dst := row * self.w + pos.1
      let src := row * pix.h
      (List.range' dst pix.w).zip (List.range' src pix.w))).flatten)

/-- `egui::epaint::image::ImageDelta`: payload plus optional position
offset (`None` = whole texture, `Some` = partial update). -/
structure ImageDelta where
  image : ImageData
  pos : Option (Nat × Nat)
deriving DecidableEq, Repr

/-- `egui::TexturesDelta`: the `set` list and the `free` list. -/
structure TexturesDelta where
  set : List (TexId × ImageDelta)
  free : List TexId
deriving DecidableEq, Repr

/-- Pointwise model of `HashMap::insert`. -/
def insertM {α : Type} (m : Nat → Option α) (k : Nat) (v : α) :
    Nat → Option α :=
  fun q => if q = k then some v else m q

/-- Pointwise model of `HashMap::remove` (key dropped; absent key is a
no-op). -/
def removeM {α : Type} (m : Nat → Option α) (k : Nat) :
    Nat → Option α :=
  fun q => if q = k then none else m q

/-- `egui::epaint::Vertex`: logical position, normalized uv, `Color32`. -/
structure EVertex where
  pos : ℚ × ℚ
  uv : ℚ × ℚ
  color : Color32
deriving DecidableEq, Repr

/-- `egui::epaint::Mesh`: vertices, index triples (flattened), texture. -/
structure MeshData where
  vertices : List EVertex
  indices : List Nat
  texture_id : TexId
deriving DecidableEq, Repr

/-- `egui::Rect` in logical units: min and max corners. -/
structure ERect where
  min : ℚ × ℚ
  max : ℚ × ℚ
deriving DecidableEq, Repr

/-- `egui::epaint::Primitive`: a mesh, or a custom paint callback. -/
inductive Primitive where
  | Mesh (mesh : MeshData)
  | Callback
deriving DecidableEq, Repr

/-- `egui::ClippedPrimitive`: primitive plus logical clip rectangle. -/
structure ClippedPrimitive where
  primitive : Primitive
  clip_rect : ERect
deriving DecidableEq, Repr

/-- `ggez::graphics::Vertex` as built by the batcher: position, uv, and
the linear RGBA color array from `Rgba::from(v.color).to_array()`. -/
structure GVertex where
  position : ℚ × ℚ
  uv : ℚ × ℚ
  color : List ℚ
deriving DecidableEq, Repr

/-- A GPU mesh (`ggez::graphics::Mesh::from_data`): retains its vertex
and index data. -/
structure GMesh where
  vertices : List GVertex
  indices : List Nat
deriving DecidableEq, Repr

/-- `ggez::graphics::Rect::new(x, y, w, h)`. -/
structure GRect where
  x : ℚ
  y : ℚ
  w : ℚ
  h : ℚ
deriving DecidableEq, Repr

/-- One entry of `paint_jobs`: `(TextureId, Mesh, Rect)`. -/
abbrev DrawBatch := TexId × GMesh × GRect

/-- The `Painter` state: pending shapes, the texture-delta FIFO queue,
the current draw batches, the GPU texture map and the CPU-side image
map. -/
structure Painter where
  shapes : List ClippedPrimitive
  textures_delta : List TexturesDelta
  paint_jobs : List DrawBatch
  textures : TexId → Option GImage
  images : TexId → Option PixBuf

/-- One iteration of the `set` loop of `Painter::update_textures`: build
the `PixBuf`; with an offset, `images.remove(id)` either fails (logged,
`continue`, state unchanged) or yields the buffer, which is blitted
locally and dropped (never reinserted); with no offset, upload and
insert into both maps. -/
def applySetDelta (env : Env) (p : Painter) (e : TexId × ImageDelta) :
    Painter :=
  let pixbuf := PixBuf.from_image_data env e.2.image
  match e.2.pos, p.images e.1 with
  | some _, none => p
  | some pos, some img =>
    let _ := PixBuf.blit img pixbuf pos
    { p with images := removeM p.images e.1 }
  | none, _ =>
    { p with
        textures := insertM p.textures e.1 pixbuf.to_texture
        images := insertM p.images e.1 pixbuf }

/-- One iteration of the `free` loop of `Painter::update_textures`:
remove the id from both maps. -/
def applyFree (p : Painter) (id : TexId) : Painter :=
  { p with
      textures := removeM p.textures id
      images := removeM p.images id }

/-- `Painter::update_textures`: apply every `set` entry in order, then
every `free` entry in order. -/
def Painter.update_textures (env : Env) (p : Painter)
    (textures_delta : TexturesDelta) : Painter :=
  textures_delta.free.foldl applyFree
    (textures_delta.set.foldl (applySetDelta env) p)

/-- `Painter::clear`: drop the previous frame's batches. -/
def Painter.clear (p : Painter) : Painter :=
  { p with paint_jobs := [] }

/-- The `while let Some(..) = self.textures_delta.pop_front()` loop of
`Painter::update`: pop and apply deltas front-first until the queue is
empty. -/
def Painter.drainAux (env : Env) :
    List TexturesDelta → Painter → Painter
  | [], p => p
  | td :: rest, p => Painter.drainAux env rest (Painter.update_textures env p td)

/-- The error raised by `Painter::update` (the
`panic!("Custom rendering callbacks are not implemented yet")` arm). -/
inductive PaintError where
  | UnsupportedPrimitive
deriving DecidableEq, Repr

/-- The vertex conversion inside the mesh arm of `Painter::update`. -/
def mkVertex (env : Env) (v : EVertex) : GVertex :=
  { position := v.pos, uv := v.uv, color := env.rgba v.color }

/-- The batch pushed for one mesh primitive: texture id, GPU mesh from
the converted vertices and the indices, and the clip rectangle scaled
from logical to pixel units (`Rect::new(min.x * s, min.y * s,
(max.x - min.x) * s, (max.y - min.y) * s)`). -/
def mkBatch (env : Env) (s : ℚ) (clip : ERect) (m : MeshData) : DrawBatch :=
  (m.texture_id,
    { vertices := m.vertices.map (mkVertex env), indices := m.indices },
    { x := clip.min.1 * s
      y := clip.min.2 * s
      w := (clip.max.1 - clip.min.1) * s
      h := (clip.max.2 - clip.min.2) * s })

/-- The `for .. in self.shapes` loop of `Painter::update`: skip meshes
with fewer than 3 vertices, push a batch for the others, and panic on a
callback primitive. -/
def buildBatches (env : Env) (s : ℚ) :
    List ClippedPrimitive → Except PaintError (List DrawBatch)
  | [] => Except.ok []
  | cp :: rest =>
    match cp.primitive with
    | Primitive.Mesh m =>
      if m.vertices.length < 3 then buildBatches env s rest
      else
        match buildBatches env s rest with
        | Except.error e => Except.error e
        | Except.ok bs => Except.ok (mkBatch env s cp.clip_rect m :: bs)
    | Primitive.Callback => Except.error PaintError.UnsupportedPrimitive

/-- What one primitive contributes to `paint_jobs`: `none` when it is
skipped (degenerate mesh) or unsupported (callback), otherwise its
batch. -/
def ClippedPrimitive.asBatch (env : Env) (s : ℚ) (cp : ClippedPrimitive) :
    Option DrawBatch :=
  match cp.primitive with
  | Primitive.Mesh m =>
    if m.vertices.length < 3 then none else some (mkBatch env s cp.clip_rect m)
  | Primitive.Callback => none

/-- `Painter::update`: drain the texture-delta queue, then run the mesh
loop over `shapes`, pushing each produced batch onto the existing
`paint_jobs`. -/
def Painter.update (env : Env) (s : ℚ) (p : Painter) :
    Except PaintError Painter :=
  let p1 := Painter.drainAux env p.textures_delta { p with textures_delta := [] }
  match buildBatches env s p1.shapes with
  | Except.error e => Except.error e
  | Except.ok bs => Except.ok { p1 with paint_jobs := p1.paint_jobs ++ bs }

/-- `ggez::graphics::BlendFactor` (constructors used by the bridge or by
plausible prior canvas states). -/
inductive BlendFactor where
  | Zero
  | One
  | SrcAlpha
  | OneMinusSrcAlpha
  | DstAlpha
  | OneMinusDstAlpha
deriving DecidableEq, Repr

/-- `ggez::graphics::BlendOperation`. -/
inductive BlendOperation where
  | Add
  | Subtract
deriving DecidableEq, Repr

/-- `ggez::graphics::BlendComponent`. -/
structure BlendComponent where
  src_factor : BlendFactor
  dst_factor : BlendFactor
  operation : BlendOperation
deriving DecidableEq, Repr

/-- `ggez::graphics::BlendMode`. -/
structure BlendMode where
  color : BlendComponent
  alpha : BlendComponent
deriving DecidableEq, Repr

/-- The fixed premultiplied-alpha blend mode installed by
`Painter::draw` (lines 24–35 of `painter.rs`). -/
def eguiBlend : BlendMode :=
  { color :=
      { src_factor := BlendFactor.One
        dst_factor := BlendFactor.OneMinusSrcAlpha
        operation := BlendOperation.Add }
    alpha :=
      { src_factor := BlendFactor.OneMinusDstAlpha
        dst_factor := BlendFactor.One
        operation := BlendOperation.Add } }

/-- One `draw_textured_mesh` call recorded on the canvas: the mesh, the
texture, and the `DrawParam::default().scale([s, s])` scale. -/
structure DrawCall where
  mesh : GMesh
  image : GImage
  scale : ℚ × ℚ
deriving DecidableEq, Repr

/-- The `ggez::graphics::Canvas` state the bridge touches: current blend
mode, current scissor rectangle (`none` = the default full-surface
scissor), and the draw calls issued so far. -/
structure Canvas where
  blend : BlendMode
  scissor : Option GRect
  calls : List DrawCall
deriving DecidableEq, Repr

/-- The two ways `Painter::draw` can panic mid-loop:
`set_scissor_rect(..).unwrap()` on a backend error, and the
`self.textures[id]` map index on an unknown id. -/
inductive DrawError where
  | ScissorFailed
  | UnknownTexture
deriving DecidableEq, Repr

/-- The `for (id, mesh, clip) in self.paint_jobs` loop of
`Painter::draw`.  `scissorOk` models whether the backend accepts a
scissor rectangle (`set_scissor_rect` returns `GameResult`).  On a panic
the canvas state reached so far is returned alongside the error. -/
def drawJobs (texs : TexId → Option GImage) (scissorOk : GRect → Bool)
    (s : ℚ) : List DrawBatch → Canvas → Option DrawError × Canvas
  | [], c => (none, c)
  | (id, mesh, clip) :: rest, c =>
    if scissorOk clip then
      match texs id with
      | some img =>
        drawJobs texs scissorOk s rest
          { c with
              scissor := some clip
              calls := c.calls ++ [{ mesh := mesh, image := img, scale := (s, s) }] }
      | none => (some DrawError.UnknownTexture, { c with scissor := some clip })
    else (some DrawError.ScissorFailed, c)

/-- `Painter::draw`: save the blend mode, install `eguiBlend`, run the
batch loop, then (only if the loop did not panic) restore the default
scissor rectangle and the saved blend mode. -/
def Painter.draw (scissorOk : GRect → Bool) (p : Painter) (c : Canvas)
    (s : ℚ) : Option DrawError × Canvas :=
  let prev := c.blend
  match drawJobs p.textures scissorOk s p.paint_jobs { c with blend := eguiBlend } with
  | (some e, c2) => (some e, c2)
  | (none, c2) => (none, { c2 with scissor := none, blend := prev })

/-- An `egui::Event` as pushed by the input bridge; only the `Text`
variant is produced by `text_input_event`. -/
inductive EguiEvent where
  | Text (c : Nat)
  | OtherEvent
deriving DecidableEq, Repr

/-- Rust `char::is_ascii_control`: U+0000..=U+001F or U+007F.  The
character is its Unicode code point as a `Nat`. -/
def is_ascii_control (c : Nat) : Bool :=
  decide (c < 0x20) || decide (c = 0x7f)

/-- `is_printable` from `input.rs`: not in one of the three private-use
ranges and not an ASCII control character. -/
def is_printable (c : Nat) : Bool :=
  let is_in_private_use_area :=
    (decide (0xe000 ≤ c) && decide (c ≤ 0xf8ff))
    || (decide (0xf0000 ≤ c) && decide (c ≤ 0xffffd))
    || (decide (0x100000 ≤ c) && decide (c ≤ 0x10fffd))
  !is_in_private_use_area && !(is_ascii_control c)

/-- `Input::text_input_event`: push `Event::Text(ch)` onto `raw.events`
iff `is_printable(ch)`. -/
def text_input_event (events : List EguiEvent) (c : Nat) : List EguiEvent :=
  if is_printable c then events ++ [EguiEvent.Text c] else events

/-- Modelled from the spec: a "control character" in the Unicode sense
(general category Cc), i.e. U+0000–U+001F and U+007F–U+009F.  Used to
compare the spec's wording ("control characters") with the code's
`is_ascii_control` filter. -/
def isControlCharacterSpec (c : Nat) : Bool :=
  decide (c ≤ 0x1f) || (decide (0x7f ≤ c) && decide (c ≤ 0x9f))

/-- Modelled from the spec: a Unicode private-use-area code point
(U+E000–U+F8FF, U+F0000–U+FFFFD, U+100000–U+10FFFD). -/
def isPrivateUseAreaSpec (c : Nat) : Bool :=
  (decide (0xe000 ≤ c) && decide (c ≤ 0xf8ff))
  || (decide (0xf0000 ≤ c) && decide (c ≤ 0xffffd))
  || (decide (0x100000 ≤ c) && decide (c ≤ 0x10fffd))

/-! ### Helper lemmas -/

lemma applySetDelta_shapes (env : Env) (p : Painter) (e : TexId × ImageDelta) :
    (applySetDelta env p e).shapes = p.shapes := by
  unfold applySetDelta
  rcases hpos : e.2.pos with _ | pos <;> rcases himg : p.images e.1 with _ | img <;> simp

lemma applySetDelta_paint_jobs (env : Env) (p : Painter) (e : TexId × ImageDelta) :
    (applySetDelta env p e).paint_jobs = p.paint_jobs := by
  unfold applySetDelta
  rcases hpos : e.2.pos with _ | pos <;> rcases himg : p.images e.1 with _ | img <;> simp

lemma applySetDelta_queue (env : Env) (p : Painter) (e : TexId × ImageDelta) :
    (applySetDelta env p e).textures_delta = p.textures_delta := by
  unfold applySetDelta
  rcases hpos : e.2.pos with _ | pos <;> rcases himg : p.images e.1 with _ | img <;> simp

lemma foldl_applySetDelta_shapes (env : Env) (l : List (TexId × ImageDelta)) :
    ∀ p : Painter, (l.foldl (applySetDelta env) p).shapes = p.shapes := by
  induction l with
  | nil => intro p; rfl
  | cons e rest ih =>
    intro p
    simp only [List.foldl_cons, ih, applySetDelta_shapes]

lemma foldl_applySetDelta_paint_jobs (env : Env) (l : List (TexId × ImageDelta)) :
    ∀ p : Painter, (l.foldl (applySetDelta env) p).paint_jobs = p.paint_jobs := by
  induction l with
  | nil => intro p; rfl
  | cons e rest ih =>
    intro p
    simp only [List.foldl_cons, ih, applySetDelta_paint_jobs]

lemma foldl_applyFree_shapes (l : List TexId) :
    ∀ p : Painter, (l.foldl applyFree p).shapes = p.shapes := by
  induction l with
  | nil => intro p; rfl
  | cons e rest ih =>
    intro p
    simp only [List.foldl_cons, ih, applyFree]

lemma foldl_applyFree_paint_jobs (l : List TexId) :
    ∀ p : Painter, (l.foldl applyFree p).paint_jobs = p.paint_jobs := by
  induction l with
  | nil => intro p; rfl
  | cons e rest ih =>
    intro p
    simp only [List.foldl_cons, ih, applyFree]

lemma update_textures_shapes (env : Env) (p : Painter) (td : TexturesDelta) :
    (Painter.update_textures env p td).shapes = p.shapes := by
  unfold Painter.update_textures
  rw [foldl_applyFree_shapes, foldl_applySetDelta_shapes]

lemma update_textures_paint_jobs (env : Env) (p : Painter) (td : TexturesDelta) :
    (Painter.update_textures env p td).paint_jobs = p.paint_jobs := by
  unfold Painter.update_textures
  rw [foldl_applyFree_paint_jobs, foldl_applySetDelta_paint_jobs]

lemma drainAux_eq_foldl (env : Env) (l : List TexturesDelta) :
    ∀ p : Painter, Painter.drainAux env l p = l.foldl (Painter.update_textures env) p := by
  induction l with
  | nil => intro p; rfl
  | cons td rest ih =>
    intro p
    simp only [Painter.drainAux, List.foldl_cons, ih]

lemma foldl_update_textures_shapes (env : Env) (l : List TexturesDelta) :
    ∀ p : Painter, (l.foldl (Painter.update_textures env) p).shapes = p.shapes := by
  induction l with
  | nil => intro p; rfl
  | cons td rest ih =>
    intro p
    simp only [List.foldl_cons, ih, update_textures_shapes]

lemma foldl_update_textures_paint_jobs (env : Env) (l : List TexturesDelta) :
    ∀ p : Painter, (l.foldl (Painter.update_textures env) p).paint_jobs = p.paint_jobs := by
  induction l with
  | nil => intro p; rfl
  | cons td rest ih =>
    intro p
    simp only [List.foldl_cons, ih, update_textures_paint_jobs]

/-- Decomposition of `Painter.update`: drain the queue by a left fold
(FIFO), batch the primitive list, append the batches. -/
lemma update_decomposed (env : Env) (s : ℚ) (p : Painter) :
    Painter.update env s p =
      match buildBatches env s p.shapes with
      | Except.error e => Except.error e
      | Except.ok bs =>
          Except.ok
            { p.textures_delta.foldl (Painter.update_textures env)
                { p with textures_delta := [] } with
              paint_jobs := p.paint_jobs ++ bs } := by
  unfold Painter.update
  rw [drainAux_eq_foldl]
  simp only [foldl_update_textures_shapes, foldl_update_textures_paint_jobs]

/-- A callback primitive anywhere in the list makes the batching loop
fail with `UnsupportedPrimitive`. -/
lemma buildBatches_callback_mem (env : Env) (s : ℚ) :
    ∀ l : List ClippedPrimitive, ∀ cp ∈ l, cp.primitive = Primitive.Callback →
      buildBatches env s l = Except.error PaintError.UnsupportedPrimitive := by
  intro l
  induction l with
  | nil => intro cp h; cases h
  | cons a rest ih =>
    intro cp hmem hcb
    rcases List.mem_cons.mp hmem with heq | htail
    · subst heq
      unfold buildBatches
      rw [hcb]
    · unfold buildBatches
      rcases ha : a.primitive with m | _
      · rw [ih cp htail hcb]
        by_cases hv : m.vertices.length < 3 <;> simp [hv]
      · rfl

/-! ### Concrete objects used by witnesses -/

/-- A concrete `Env` for witnesses: every coverage maps to alpha byte 0,
every color converts to the zero linear-RGBA array. -/
def envW : Env := ⟨fun _ => 0, fun _ => [0, 0, 0, 0]⟩

/-- An empty GPU-texture map. -/
def noTex : TexId → Option GImage := fun _ => none

/-- An empty CPU-image map. -/
def noImg : TexId → Option PixBuf := fun _ => none

/-- A concrete 1×1 pixel buffer. -/
def pixW : PixBuf := ⟨[1, 2, 3, 4], 1, 1⟩

/-- A concrete 1×1 GPU texture. -/
def gimgW : GImage := ⟨[1, 2, 3, 4], ImageFormat.Rgba8UnormSrgb, 1, 1⟩

/-- A concrete 1×1 color-image delta payload. -/
def deltaImgW : ImageData := ImageData.Color ⟨1, 1, [⟨9, 9, 9, 9⟩]⟩

/-- A painter with empty state. -/
def emptyPainter : Painter := ⟨[], [], [], noTex, noImg⟩

/-! ### Claims -/

/-- Claim C1: `Painter.update` first drains and applies all queued
texture deltas, strictly in arrival (FIFO) order (a left fold over the
queue, front first, leaving the queue empty), before any primitive is
converted into a `DrawBatch`: the batches are computed by `buildBatches`
from the primitive list alone and appended only after the drain, so no
batch is built while a delta is still pending. -/
theorem update_drains_deltas_fifo_before_batching (env : Env) (s : ℚ) (p : Painter) :
    Painter.update env s p =
      match buildBatches env s p.shapes with
      | Except.error e => Except.error e
      | Except.ok bs =>
          Except.ok
            { p.textures_delta.foldl (Painter.update_textures env)
                { p with textures_delta := [] } with
              paint_jobs := p.paint_jobs ++ bs } :=
  update_decomposed env s p

/-- Claim C2: a `Set` delta with an offset whose id has no record in the
CPU-side image map is skipped: applying it (alone, or as a whole
`TexturesDelta` batch) leaves the painter — both the GPU-texture map and
the CPU-side image map — completely unchanged, and the model is total,
i.e. this path cannot panic. -/
theorem offset_set_unknown_id_skipped (env : Env) (p : Painter) (id : TexId)
    (delta : ImageDelta) (pos : Nat × Nat)
    (hpos : delta.pos = some pos) (habs : p.images id = none) :
    applySetDelta env p (id, delta) = p ∧
      Painter.update_textures env p { set := [(id, delta)], free := [] } = p := by
  have h1 : applySetDelta env p (id, delta) = p := by
    unfold applySetDelta
    simp only [hpos, habs]
  refine ⟨h1, ?_⟩
  unfold Painter.update_textures
  simp only [List.foldl_cons, List.foldl_nil, h1]

/-- Witness for C2 at a concrete input: an offset `Set` for id 1 against
an empty store is a no-op. -/
theorem offset_set_unknown_id_skipped_witness :
    applySetDelta envW emptyPainter (1, ⟨deltaImgW, some (1, 2)⟩) = emptyPainter ∧
      Painter.update_textures envW emptyPainter
        { set := [(1, ⟨deltaImgW, some (1, 2)⟩)], free := [] } = emptyPainter :=
  offset_set_unknown_id_skipped envW emptyPainter 1 ⟨deltaImgW, some (1, 2)⟩ (1, 2) rfl rfl

/-- Claim C10: a `Set` delta with an offset whose id has a live record
removes the CPU-side pixel buffer for that id and never reinserts it,
while the GPU-texture map is untouched and the blit copies no bytes (the
destination buffer it returns is unchanged); afterwards the CPU-side
image map and the GPU-texture map disagree on that key, so their key
sets differ. -/
theorem offset_set_known_id_drops_cpu_record (env : Env) (p : Painter) (id : TexId)
    (delta : ImageDelta) (pos : Nat × Nat) (img : PixBuf)
    (hpos : delta.pos = some pos) (himg : p.images id = some img)
    (htex : (p.textures id).isSome = true) :
    Painter.update_textures env p { set := [(id, delta)], free := [] }
        = { p with images := removeM p.images id } ∧
      (Painter.update_textures env p { set := [(id, delta)], free := [] }).images id
        = none ∧
      (Painter.update_textures env p { set := [(id, delta)], free := [] }).textures id
        = p.textures id ∧
      ((Painter.update_textures env p { set := [(id, delta)], free := [] }).images id).isSome
        ≠ ((Painter.update_textures env p { set := [(id, delta)], free := [] }).textures id).isSome ∧
      (PixBuf.blit img (PixBuf.from_image_data env delta.image) pos).1 = img := by
  have h1 : Painter.update_textures env p { set := [(id, delta)], free := [] }
      = { p with images := removeM p.images id } := by
    unfold Painter.update_textures
    simp only [List.foldl_cons, List.foldl_nil]
    unfold applySetDelta
    simp only [hpos, himg]
  refine ⟨h1, ?_, ?_, ?_, rfl⟩
  · rw [h1]
    simp [removeM]
  · rw [h1]
  · rw [h1]
    simp only [removeM]
    simp only [if_pos rfl, Option.isSome_none, htex]
    exact fun h => Bool.false_ne_true h

/-- Witness for C10 at a concrete input: an offset `Set` for id 1
against a store holding id 1 in both maps. -/
theorem offset_set_known_id_drops_cpu_record_witness :
    Painter.update_textures envW
        { shapes := [], textures_delta := [], paint_jobs := [],
          textures := insertM noTex 1 gimgW, images := insertM noImg 1 pixW }
        { set := [(1, ⟨deltaImgW, some (0, 0)⟩)], free := [] }
      = { shapes := [], textures_delta := [], paint_jobs := [],
          textures := insertM noTex 1 gimgW,
          images := removeM (insertM noImg 1 pixW) 1 } ∧
      (Painter.update_textures envW
          { shapes := [], textures_delta := [], paint_jobs := [],
            textures := insertM noTex 1 gimgW, images := insertM noImg 1 pixW }
          { set := [(1, ⟨deltaImgW, some (0, 0)⟩)], free := [] }).images 1
        = none ∧
      (Painter.update_textures envW
          { shapes := [], textures_delta := [], paint_jobs := [],
            textures := insertM noTex 1 gimgW, images := insertM noImg 1 pixW }
          { set := [(1, ⟨deltaImgW, some (0, 0)⟩)], free := [] }).textures 1
        = insertM noTex 1 gimgW 1 ∧
      ((Painter.update_textures envW
          { shapes := [], textures_delta := [], paint_jobs := [],
            textures := insertM noTex 1 gimgW, images := insertM noImg 1 pixW }
          { set := [(1, ⟨deltaImgW, some (0, 0)⟩)], free := [] }).images 1).isSome
        ≠ ((Painter.update_textures envW
          { shapes := [], textures_delta := [], paint_jobs := [],
            textures := insertM noTex 1 gimgW, images := insertM noImg 1 pixW }
          { set := [(1, ⟨deltaImgW, some (0, 0)⟩)], free := [] }).textures 1).isSome ∧
      (PixBuf.blit pixW (PixBuf.from_image_data envW deltaImgW) (0, 0)).1 = pixW :=
  offset_set_known_id_drops_cpu_record envW
    { shapes := [], textures_delta := [], paint_jobs := [],
      textures := insertM noTex 1 gimgW, images := insertM noImg 1 pixW }
    1 ⟨deltaImgW, some (0, 0)⟩ (0, 0) pixW rfl (by simp [insertM, noImg])
    (by simp [insertM, noTex])

/-- A prior blend mode distinct from the egui blend configuration
(classic non-premultiplied alpha blending). -/
def blendW : BlendMode :=
  ⟨⟨BlendFactor.SrcAlpha, BlendFactor.OneMinusSrcAlpha, BlendOperation.Add⟩,
    ⟨BlendFactor.One, BlendFactor.One, BlendOperation.Add⟩⟩

/-- A concrete stale draw batch (as left over from a prior frame). -/
def batchW : DrawBatch := (0, ⟨[], []⟩, ⟨0, 0, 1, 1⟩)

/-- A canvas in its default state, carrying `blendW`. -/
def canvasW : Canvas := ⟨blendW, none, []⟩

/-- A painter holding exactly one (stale) paint job and nothing else. -/
def painterOneJob : Painter := ⟨[], [], [batchW], noTex, noImg⟩

/-- A concrete vertex at the origin. -/
def vW : EVertex := ⟨(0, 0), (0, 0), ⟨0, 0, 0, 0⟩⟩

/-- A concrete valid (3-vertex) mesh primitive with texture id 7. -/
def cpW : ClippedPrimitive :=
  ⟨Primitive.Mesh ⟨[vW, vW, vW], [0, 1, 2], 7⟩, ⟨(0, 0), (1, 1)⟩⟩

/-- A painter with one current valid primitive and one stale paint job
left over from the prior frame. -/
def painterPrior : Painter := ⟨[cpW], [], [batchW], noTex, noImg⟩

/-- Counterexample to claim C3: `Painter.draw` does not restore the
pre-call blend mode on every exit path.  With a backend that rejects the
scissor rectangle of the only batch, the loop's
`set_scissor_rect(..).unwrap()` panics and the canvas is left with the
egui blend mode installed, not the saved one (`blendW`), and no scoped
restoration happens. -/
theorem draw_no_restore_on_scissor_error_cex :
    (Painter.draw (fun _ => false) painterOneJob canvasW 1).2.blend = eguiBlend ∧
      (Painter.draw (fun _ => false) painterOneJob canvasW 1).1
        = some DrawError.ScissorFailed ∧
      eguiBlend ≠ canvasW.blend := by
  refine ⟨rfl, rfl, ?_⟩
  intro h
  cases h

/-- Claim C3 (amended): `Painter.draw` restores the default
(full-surface) scissor rectangle and the exact pre-call blend mode
whenever it completes without panicking — in particular when zero
batches are drawn; but when setting a scissor rectangle fails or a
texture id is missing, the call panics inside the loop and no
restoration takes place. -/
theorem draw_restores_blend_and_scissor_on_ok (scissorOk : GRect → Bool)
    (p : Painter) (c : Canvas) (s : ℚ)
    (h : (Painter.draw scissorOk p c s).1 = none) :
    (Painter.draw scissorOk p c s).2.scissor = none ∧
      (Painter.draw scissorOk p c s).2.blend = c.blend := by
  rcases hd : drawJobs p.textures scissorOk s p.paint_jobs { c with blend := eguiBlend }
    with ⟨oe, c2⟩
  simp only [Painter.draw, hd] at h ⊢
  cases oe with
  | some e => simp at h
  | none => exact ⟨rfl, rfl⟩

/-- Witness for the amended C3 at a concrete input: drawing zero batches
completes and restores the default scissor and the saved blend mode. -/
theorem draw_restores_blend_and_scissor_on_ok_witness :
    (Painter.draw (fun _ => true) emptyPainter canvasW 1).2.scissor = none ∧
      (Painter.draw (fun _ => true) emptyPainter canvasW 1).2.blend = canvasW.blend :=
  draw_restores_blend_and_scissor_on_ok (fun _ => true) emptyPainter canvasW 1 rfl

/-- Counterexample to claim C4: `Painter.update` does not replace the
prior frame's batch list.  Starting from a painter with one stale paint
job and one current valid primitive, `update` yields two paint jobs —
the stale one still at the head — while the current primitive list
derives exactly one batch. -/
theorem update_appends_to_prior_batches_cex :
    (match Painter.update envW 1 painterPrior with
     | Except.ok q => q.paint_jobs.length
     | Except.error _ => 0) = 2 ∧
      (match Painter.update envW 1 painterPrior with
       | Except.ok q => q.paint_jobs.get? 0
       | Except.error _ => none) = some batchW ∧
      (painterPrior.shapes.filterMap (ClippedPrimitive.asBatch envW 1)).length = 1 := by
  refine ⟨by decide, by decide, by decide⟩

/-- Claim C4 (amended): `Painter.update` appends the batches derived
from the current primitive list to whatever `paint_jobs` already holds;
the prior frame's batches are replaced only when `Painter.clear` (the
per-frame `begin_frame` step) runs first, in which case the resulting
batch list is exactly the one derived from the current primitives. -/
theorem clear_then_update_rebuilds_batches (env : Env) (s : ℚ) (p : Painter)
    (bs : List DrawBatch) (h : buildBatches env s p.shapes = Except.ok bs) :
    (∃ q, Painter.update env s (Painter.clear p) = Except.ok q ∧ q.paint_jobs = bs) ∧
      ∃ q, Painter.update env s p = Except.ok q ∧ q.paint_jobs = p.paint_jobs ++ bs := by
  constructor
  · rw [update_decomposed]
    have hs : (Painter.clear p).shapes = p.shapes := rfl
    rw [hs, h]
    exact ⟨_, rfl, List.nil_append bs⟩
  · rw [update_decomposed, h]
    exact ⟨_, rfl, rfl⟩

/-- Witness for the amended C4 at a concrete input: with one stale batch
and one current valid primitive, `clear` then `update` yields exactly
the derived batch, while `update` alone appends it after the stale
one. -/
theorem clear_then_update_rebuilds_batches_witness :
    (∃ q, Painter.update envW 1 (Painter.clear painterPrior) = Except.ok q ∧
        q.paint_jobs = [mkBatch envW 1 ⟨(0, 0), (1, 1)⟩ ⟨[vW, vW, vW], [0, 1, 2], 7⟩]) ∧
      ∃ q, Painter.update envW 1 painterPrior = Except.ok q ∧
        q.paint_jobs = painterPrior.paint_jobs
          ++ [mkBatch envW 1 ⟨(0, 0), (1, 1)⟩ ⟨[vW, vW, vW], [0, 1, 2], 7⟩] :=
  clear_then_update_rebuilds_batches envW 1 painterPrior
    [mkBatch envW 1 ⟨(0, 0), (1, 1)⟩ ⟨[vW, vW, vW], [0, 1, 2], 7⟩] rfl

/-- Claim C5: a callback-type primitive anywhere in the frame's
primitive list makes `Painter.update` fail with
`UnsupportedPrimitive` (the `panic!` arm of the mesh loop): the
primitive is neither silently dropped nor batched past. -/
theorem callback_primitive_fatal (env : Env) (s : ℚ) (p : Painter)
    (cp : ClippedPrimitive) (hmem : cp ∈ p.shapes)
    (hcb : cp.primitive = Primitive.Callback) :
    Painter.update env s p = Except.error PaintError.UnsupportedPrimitive := by
  rw [update_decomposed, buildBatches_callback_mem env s p.shapes cp hmem hcb]

/-- Witness for C5 at a concrete input: a single callback primitive
aborts the update. -/
theorem callback_primitive_fatal_witness :
    Painter.update envW 1
        { shapes := [⟨Primitive.Callback, ⟨(0, 0), (0, 0)⟩⟩],
          textures_delta := [], paint_jobs := [],
          textures := noTex, images := noImg }
      = Except.error PaintError.UnsupportedPrimitive :=
  callback_primitive_fatal envW 1
    { shapes := [⟨Primitive.Callback, ⟨(0, 0), (0, 0)⟩⟩],
      textures_delta := [], paint_jobs := [],
      textures := noTex, images := noImg }
    ⟨Primitive.Callback, ⟨(0, 0), (0, 0)⟩⟩ (List.Mem.head _) rfl

/-- When no callback primitive is present, the batching loop succeeds
and returns, in order, exactly the batch each primitive contributes. -/
lemma buildBatches_eq_filterMap (env : Env) (s : ℚ) :
    ∀ l : List ClippedPrimitive, (∀ cp ∈ l, cp.primitive ≠ Primitive.Callback) →
      buildBatches env s l = Except.ok (l.filterMap (ClippedPrimitive.asBatch env s)) := by
  intro l
  induction l with
  | nil => intro _; rfl
  | cons a rest ih =>
    intro h
    have hrest : ∀ cp ∈ rest, cp.primitive ≠ Primitive.Callback :=
      fun cp hm => h cp (List.mem_cons_of_mem a hm)
    rcases ha : a.primitive with m | _
    · by_cases hv : m.vertices.length < 3 <;>
        simp [buildBatches, ha, hv, ih hrest, List.filterMap_cons,
          ClippedPrimitive.asBatch]
    · exact absurd ha (h a (List.mem_cons_self a rest))

/-- `filterMap` with a function that succeeds on every element preserves
the length. -/
lemma length_filterMap_all_some {α β : Type} (f : α → Option β) :
    ∀ l : List α, (∀ x ∈ l, (f x).isSome = true) →
      (l.filterMap f).length = l.length := by
  intro l
  induction l with
  | nil => intro _; rfl
  | cons a rest ih =>
    intro h
    have ha := h a (List.mem_cons_self a rest)
    rcases hfa : f a with _ | b
    · rw [hfa] at ha; simp at ha
    · simp [List.filterMap_cons, hfa,
        ih (fun x hx => h x (List.mem_cons_of_mem a hx))]

/-- `filterMap` with a function that succeeds on every element acts
pointwise on indices. -/
lemma get?_filterMap_all_some {α β : Type} (f : α → Option β) :
    ∀ l : List α, (∀ x ∈ l, (f x).isSome = true) →
      ∀ i : Nat, (l.filterMap f).get? i = (l.get? i).bind f := by
  intro l
  induction l with
  | nil => intro _ i; simp
  | cons a rest ih =>
    intro h i
    have ha := h a (List.mem_cons_self a rest)
    rcases hfa : f a with _ | b
    · rw [hfa] at ha; simp at ha
    · cases i with
      | zero => simp [List.filterMap_cons, hfa]
      | succ j =>
        simp only [List.filterMap_cons, hfa, List.get?_cons_succ]
        exact ih (fun x hx => h x (List.mem_cons_of_mem a hx)) j

/-- Indexing an appended list past the first part. -/
lemma get?_append_add {α : Type} :
    ∀ (l1 l2 : List α) (i : Nat), (l1 ++ l2).get? (l1.length + i) = l2.get? i := by
  intro l1
  induction l1 with
  | nil => intro l2 i; simp
  | cons a t ih =>
    intro l2 i
    simp only [List.cons_append, List.length_cons]
    have h : t.length + 1 + i = (t.length + i) + 1 := by omega
    rw [h, List.get?_cons_succ, ih]

/-- Claim C6: batching preserves primitive order.  When every primitive
in `shapes` is a valid mesh (contributes a batch, i.e. is a mesh with at
least 3 vertices), `Painter.update` succeeds, appends exactly one batch
per primitive, and the i-th appended batch is the one derived from the
i-th primitive. -/
theorem batches_follow_primitive_order (env : Env) (s : ℚ) (p : Painter)
    (hvalid : ∀ cp ∈ p.shapes, (ClippedPrimitive.asBatch env s cp).isSome = true) :
    ∃ q, Painter.update env s p = Except.ok q ∧
      q.paint_jobs.length = p.paint_jobs.length + p.shapes.length ∧
      ∀ i, i < p.shapes.length →
        q.paint_jobs.get? (p.paint_jobs.length + i)
          = (p.shapes.get? i).bind (ClippedPrimitive.asBatch env s) := by
  have hnc : ∀ cp ∈ p.shapes, cp.primitive ≠ Primitive.Callback := by
    intro cp hm hcb
    have hs := hvalid cp hm
    rw [ClippedPrimitive.asBatch, hcb] at hs
    simp at hs
  rw [update_decomposed, buildBatches_eq_filterMap env s p.shapes hnc]
  refine ⟨_, rfl, ?_, ?_⟩
  · simp [length_filterMap_all_some _ _ hvalid]
  · intro i hi
    show (p.paint_jobs ++ p.shapes.filterMap (ClippedPrimitive.asBatch env s)).get?
        (p.paint_jobs.length + i) = _
    rw [get?_append_add, get?_filterMap_all_some _ _ hvalid]

/-- A second concrete valid primitive, with texture id 8, so the witness
exercises two distinguishable batches in order. -/
def cpW8 : ClippedPrimitive :=
  ⟨Primitive.Mesh ⟨[vW, vW, vW, vW], [0, 1, 2, 0, 2, 3], 8⟩, ⟨(0, 0), (2, 2)⟩⟩

/-- Witness for C6 at a concrete input: two valid primitives with
texture ids 7 and 8 produce two batches in that order. -/
theorem batches_follow_primitive_order_witness :
    ∃ q, Painter.update envW 1
        { shapes := [cpW, cpW8], textures_delta := [], paint_jobs := [],
          textures := noTex, images := noImg } = Except.ok q ∧
      q.paint_jobs.length =
        ({ shapes := [cpW, cpW8], textures_delta := [], paint_jobs := [],
           textures := noTex, images := noImg } : Painter).paint_jobs.length + 2 ∧
      ∀ i, i < 2 →
        q.paint_jobs.get?
            (({ shapes := [cpW, cpW8], textures_delta := [], paint_jobs := [],
                textures := noTex, images := noImg } : Painter).paint_jobs.length + i)
          = ([cpW, cpW8].get? i).bind (ClippedPrimitive.asBatch envW 1) :=
  batches_follow_primitive_order envW 1
    { shapes := [cpW, cpW8], textures_delta := [], paint_jobs := [],
      textures := noTex, images := noImg }
    (by decide)

/-- Claim C7: the batch scissor rectangle is the logical clip rectangle
with its min point and its extent each multiplied by the scale factor;
in particular the logical clip rect (10,10)-(50,40) at scale factor 2
yields the pixel rect with origin (20,20), extent (80,60), i.e. max
corner (100,80). -/
theorem scissor_rect_scales_min_and_extent (env : Env) (s : ℚ) (clip : ERect)
    (m : MeshData) (h : 3 ≤ m.vertices.length) :
    ClippedPrimitive.asBatch env s ⟨Primitive.Mesh m, clip⟩
        = some (m.texture_id,
            ⟨m.vertices.map (mkVertex env), m.indices⟩,
            ⟨clip.min.1 * s, clip.min.2 * s,
              (clip.max.1 - clip.min.1) * s, (clip.max.2 - clip.min.2) * s⟩) ∧
      (mkBatch env 2 ⟨(10, 10), (50, 40)⟩ m).2.2 = (⟨20, 20, 80, 60⟩ : GRect) ∧
      (mkBatch env 2 ⟨(10, 10), (50, 40)⟩ m).2.2.x
          + (mkBatch env 2 ⟨(10, 10), (50, 40)⟩ m).2.2.w = 100 ∧
      (mkBatch env 2 ⟨(10, 10), (50, 40)⟩ m).2.2.y
          + (mkBatch env 2 ⟨(10, 10), (50, 40)⟩ m).2.2.h = 80 := by
  refine ⟨?_, ?_, ?_, ?_⟩
  · simp [ClippedPrimitive.asBatch, mkBatch, Nat.not_lt.mpr h]
  · norm_num [mkBatch]
  · norm_num [mkBatch]
  · norm_num [mkBatch]

/-- Witness for C7 at a concrete input: a 3-vertex mesh with texture id
7 and clip rect (1,2)-(3,4) at scale 1. -/
theorem scissor_rect_scales_min_and_extent_witness :
    ClippedPrimitive.asBatch envW 1 ⟨Primitive.Mesh ⟨[vW, vW, vW], [0, 1, 2], 7⟩, ⟨(1, 2), (3, 4)⟩⟩
        = some ((⟨[vW, vW, vW], [0, 1, 2], 7⟩ : MeshData).texture_id,
            ⟨(⟨[vW, vW, vW], [0, 1, 2], 7⟩ : MeshData).vertices.map (mkVertex envW),
              (⟨[vW, vW, vW], [0, 1, 2], 7⟩ : MeshData).indices⟩,
            ⟨(⟨(1, 2), (3, 4)⟩ : ERect).min.1 * 1, (⟨(1, 2), (3, 4)⟩ : ERect).min.2 * 1,
              ((⟨(1, 2), (3, 4)⟩ : ERect).max.1 - (⟨(1, 2), (3, 4)⟩ : ERect).min.1) * 1,
              ((⟨(1, 2), (3, 4)⟩ : ERect).max.2 - (⟨(1, 2), (3, 4)⟩ : ERect).min.2) * 1⟩) ∧
      (mkBatch envW 2 ⟨(10, 10), (50, 40)⟩ ⟨[vW, vW, vW], [0, 1, 2], 7⟩).2.2
        = (⟨20, 20, 80, 60⟩ : GRect) ∧
      (mkBatch envW 2 ⟨(10, 10), (50, 40)⟩ ⟨[vW, vW, vW], [0, 1, 2], 7⟩).2.2.x
          + (mkBatch envW 2 ⟨(10, 10), (50, 40)⟩ ⟨[vW, vW, vW], [0, 1, 2], 7⟩).2.2.w = 100 ∧
      (mkBatch envW 2 ⟨(10, 10), (50, 40)⟩ ⟨[vW, vW, vW], [0, 1, 2], 7⟩).2.2.y
          + (mkBatch envW 2 ⟨(10, 10), (50, 40)⟩ ⟨[vW, vW, vW], [0, 1, 2], 7⟩).2.2.h = 80 :=
  scissor_rect_scales_min_and_extent envW 1 ⟨(1, 2), (3, 4)⟩
    ⟨[vW, vW, vW], [0, 1, 2], 7⟩ (by decide)

/-- Flattening a list of 4-byte quads quadruples the length. -/
lemma flatten_quads_length (l : List Nat) :
    ((l.map (fun a => [a, a, a, a])).flatten).length = 4 * l.length := by
  induction l with
  | nil => rfl
  | cons a t ih =>
    simp only [List.map_cons, List.flatten_cons, List.length_append, ih,
      List.length_cons]
    simp
    omega

/-- Indexing into a flattened list of 4-byte quads: the byte at
`4 * t + k` (for `k < 4`) is the value of the `t`-th quad. -/
lemma flatten_quads_get (l : List Nat) :
    ∀ t k : Nat, t < l.length → k < 4 →
      ((l.map (fun a => [a, a, a, a])).flatten).get? (4 * t + k) = l.get? t := by
  induction l with
  | nil =>
    intro t k ht _
    simp at ht
  | cons a rest ih =>
    intro t k ht hk
    cases t with
    | zero => interval_cases k <;> rfl
    | succ u =>
      have h4 : 4 * (u + 1) + k = 4 * u + k + 1 + 1 + 1 + 1 := by ring
      rw [h4]
      simp only [List.map_cons, List.flatten_cons, List.cons_append]
      show (a :: a :: a :: a :: (rest.map (fun a => [a, a, a, a])).flatten).get?
          (4 * u + k + 1 + 1 + 1 + 1) = (a :: rest).get? (u + 1)
      simp only [List.get?_cons_succ]
      exact ih u k (Nat.lt_of_succ_lt_succ ht) hk

/-- Claim C8: building a `PixBuf` from a font/coverage image of width w
and height h yields exactly `w * h * 4` bytes, and for every texel the
R, G and B bytes each equal the alpha byte (coverage expanded to
premultiplied white). -/
theorem from_font_coverage_white_alpha (env : Env) (f : FontImage)
    (hlen : f.pixels.length = f.w * f.h) :
    (PixBuf.from_font env f).pix.length = f.w * f.h * 4 ∧
      ∀ t, t < f.w * f.h →
        ((PixBuf.from_font env f).pix.get? (4 * t)
            = (PixBuf.from_font env f).pix.get? (4 * t + 3) ∧
          (PixBuf.from_font env f).pix.get? (4 * t + 1)
            = (PixBuf.from_font env f).pix.get? (4 * t + 3) ∧
          (PixBuf.from_font env f).pix.get? (4 * t + 2)
            = (PixBuf.from_font env f).pix.get? (4 * t + 3)) := by
  have hm : (f.pixels.map (srgbaPixel env)).map Color32.toArray
      = (f.pixels.map env.alphaOf).map (fun a => [a, a, a, a]) := by
    rw [List.map_map, List.map_map]
    rfl
  have hpix : (PixBuf.from_font env f).pix
      = ((f.pixels.map env.alphaOf).map (fun a => [a, a, a, a])).flatten := by
    show ((f.pixels.map (srgbaPixel env)).map Color32.toArray).flatten = _
    rw [hm]
  have hlen2 : (f.pixels.map env.alphaOf).length = f.w * f.h := by
    simp [hlen]
  constructor
  · rw [hpix, flatten_quads_length, hlen2]
    ring
  · intro t ht
    have ht2 : t < (f.pixels.map env.alphaOf).length := by
      rw [hlen2]; exact ht
    have h0 := flatten_quads_get (f.pixels.map env.alphaOf) t 0 ht2 (by omega)
    have h1 := flatten_quads_get (f.pixels.map env.alphaOf) t 1 ht2 (by omega)
    have h2 := flatten_quads_get (f.pixels.map env.alphaOf) t 2 ht2 (by omega)
    have h3 := flatten_quads_get (f.pixels.map env.alphaOf) t 3 ht2 (by omega)
    rw [Nat.add_zero] at h0
    rw [hpix]
    exact ⟨h0.trans h3.symm, h1.trans h3.symm, h2.trans h3.symm⟩

/-- Witness for C8 at a concrete input: a 2×1 coverage image. -/
theorem from_font_coverage_white_alpha_witness :
    (PixBuf.from_font envW ⟨2, 1, [0, 1/2]⟩).pix.length = 2 * 1 * 4 ∧
      ∀ t, t < 2 * 1 →
        ((PixBuf.from_font envW ⟨2, 1, [0, 1/2]⟩).pix.get? (4 * t)
            = (PixBuf.from_font envW ⟨2, 1, [0, 1/2]⟩).pix.get? (4 * t + 3) ∧
          (PixBuf.from_font envW ⟨2, 1, [0, 1/2]⟩).pix.get? (4 * t + 1)
            = (PixBuf.from_font envW ⟨2, 1, [0, 1/2]⟩).pix.get? (4 * t + 3) ∧
          (PixBuf.from_font envW ⟨2, 1, [0, 1/2]⟩).pix.get? (4 * t + 2)
            = (PixBuf.from_font envW ⟨2, 1, [0, 1/2]⟩).pix.get? (4 * t + 3)) :=
  from_font_coverage_white_alpha envW ⟨2, 1, [0, 1/2]⟩ rfl

/-- Counterexample to claim C9: U+0085 (NEL) is a Unicode control
character (category Cc), yet `text_input_event` reports it upstream as a
committed text event, because the code filters only ASCII controls
(`is_ascii_control`), not all Unicode control characters. -/
theorem nel_control_char_reported_cex :
    text_input_event [] 0x85 = [EguiEvent.Text 0x85] ∧
      isControlCharacterSpec 0x85 = true ∧
      is_printable 0x85 = true := by
  decide

/-- Claim C9 (amended): a character is reported upstream as a committed
text event if and only if it is neither an ASCII control character
(U+0000–U+001F, U+007F) nor a Unicode private-use-area code point; every
ASCII control character and every private-use-area code point is
filtered out (non-ASCII C1 controls such as U+0085 pass through). -/
theorem text_event_filters_ascii_control_and_pua (c : Nat) :
    text_input_event [] c = [EguiEvent.Text c] ↔
      (is_ascii_control c = false ∧ isPrivateUseAreaSpec c = false) := by
  have hp : is_printable c = (!isPrivateUseAreaSpec c && !is_ascii_control c) := rfl
  unfold text_input_event
  rw [hp]
  cases hpua : isPrivateUseAreaSpec c <;> cases hac : is_ascii_control c <;> simp

end Ggegui
